import Mathlib

/-!
Shallow embedding of the GhostWriter dictation utility
(`ghostwriter_app.py`): the settings store, the recording/transcription
lifecycle (`process_recording`, `transcribe`, `type_text`), the
thread-to-UI update queue (`poll_updates`), the hotkey predicate
(`is_hotkey_pressed`) and the hotkey/recording state machine
(`start_recording` / `stop_recording` / `toggle_recording` /
`on_key_press`).

External effects (subprocess invocation, clipboard, keystrokes, the
temporary wave file) are reified as an explicit event trace; the
behaviour of the external recognizer subprocess is a parameter.
Machine floats of the source (`paste_delay`, the 0.5 s duration
threshold) are embedded as rationals: every value involved
(0.05…0.5, len/16000) is exactly representable in binary floating
point, so the comparisons agree.
-/

namespace GhostWriter

/-- JSON-ish settings value: the five recognized settings are a string
(`hotkey`), booleans and a number (`paste_delay`). -/
inductive JVal where
  | str (s : String)
  | bool (b : Bool)
  | num (q : ℚ)
deriving DecidableEq, Repr

/-- An insertion-ordered string-keyed map, the embedding of a Python
`dict` holding settings (and of a parsed JSON object). -/
abbrev SettingsMap := List (String × JVal)

/-- Python `d[k]` read / `k in d` test: first matching key. -/
def lookupKey : SettingsMap → String → Option JVal
  | [], _ => none
  | (k', v) :: rest, k => if k' = k then some v else lookupKey rest k

/-- Python `d[k] = v`: overwrite in place if the key exists, else append
(dict insertion order). -/
def setKey : SettingsMap → String → JVal → SettingsMap
  | [], k, v => [(k, v)]
  | (k', v') :: rest, k, v =>
      if k' = k then (k, v) :: rest else (k', v') :: setKey rest k v

/-- The key set of a settings map, in order. -/
def keysOf (s : SettingsMap) : List String := s.map Prod.fst

/-- `DEFAULT_SETTINGS` from the source (lines 112-118). `0.15` is kept
as the rational 3/20. -/
def DEFAULT_SETTINGS : SettingsMap :=
  [("hotkey", .str "F8"),
   ("sound_enabled", .bool true),
   ("paste_delay", .num (15/100 : ℚ)),
   ("start_minimized", .bool false),
   ("run_on_startup", .bool false)]

/-- The iteration order of `for key in DEFAULT_SETTINGS`. -/
def defaultKeyNames : List String := keysOf DEFAULT_SETTINGS

/-- The merge loop of `load_settings`: `for key in DEFAULT_SETTINGS:
if key in loaded: self.settings[key] = loaded[key]`. -/
def mergeKeys : List String → SettingsMap → SettingsMap → SettingsMap
  | [], s, _ => s
  | k :: ks, s, f =>
      mergeKeys ks (match lookupKey f k with
                    | some v => setKey s k v
                    | none => s) f

/-- Outcome of opening and parsing `settings.json`. A missing file is
skipped by the `os.path.exists` guard; an unreadable or non-object file
raises inside the `try` before any assignment and is caught, leaving
the settings unchanged. -/
inductive FileState where
  | absent
  | invalid (msg : String)
  | object (entries : SettingsMap)
deriving DecidableEq, Repr

/-- `GhostWriterApp.load_settings` (lines 386-398), acting on the current
settings map. -/
def load_settings (s : SettingsMap) : FileState → SettingsMap
  | .absent => s
  | .invalid _ => s
  | .object f => mergeKeys defaultKeyNames s f

/-- `GhostWriterApp.save_settings` (lines 400-407): `json.dump` writes
every pair of the settings dict. -/
def save_settings (s : SettingsMap) : FileState := .object s

/-- Loading in a fresh app: `__init__` sets
`self.settings = DEFAULT_SETTINGS.copy()` and then calls
`load_settings` on the file. -/
def loadFresh (f : FileState) : SettingsMap := load_settings DEFAULT_SETTINGS f

/-- Save the settings, then load them in a fresh app. -/
def roundTrip (s : SettingsMap) : SettingsMap := loadFresh (save_settings s)

-- ===== Status and the thread-to-UI update queue =====

/-- The four status states (`STATUS_READY` … `STATUS_ERROR`). -/
inductive Status where
  | ready
  | recording
  | transcribing
  | error
deriving DecidableEq, Repr

/-- An update-queue entry: `("status", state, message)` or
`("transcription", text)`. -/
inductive UIUpdate where
  | status (st : Status) (msg : String)
  | transcription (t : String)
deriving DecidableEq, Repr

/-- `queue.Queue.put`: FIFO enqueue at the back. -/
def putUpdate (q : List UIUpdate) (u : UIUpdate) : List UIUpdate := q ++ [u]

/-- The widget state touched by `_update_status_ui` and
`_update_transcription_ui`: the status dot colour, the status label
text and colour, and the transcription text box. -/
structure UIState where
  dotColor : String
  labelText : String
  labelColor : String
  boxText : String
deriving DecidableEq, Repr

/-- The `colors` table of `_update_status_ui`. -/
def statusColor : Status → String
  | .ready => "#888888"
  | .recording => "#4CAF50"
  | .transcribing => "#FFC107"
  | .error => "#F44336"

/-- `_update_status_ui(state, message)`; `hk` is the current
`settings["hotkey"]` read for the hint text. -/
def updateStatusUi (hk : String) (ui : UIState) (st : Status) (msg : String) :
    UIState :=
  let ui := { ui with dotColor := statusColor st }
  match st with
  | .ready =>
      { ui with labelText := "Ready", labelColor := "white",
                boxText := "Press " ++ hk ++ " to start listening..." }
  | .recording => { ui with labelText := "Listening...", labelColor := "#4CAF50" }
  | .transcribing => { ui with labelText := "Thinking...", labelColor := "#FFC107" }
  | .error =>
      { ui with labelText := "Error", labelColor := "#F44336", boxText := msg }

/-- `_update_transcription_ui(text)`. -/
def updateTranscriptionUi (ui : UIState) (t : String) : UIState :=
  { ui with boxText := t }

/-- Dispatch of one dequeued entry inside the `poll_updates` loop. -/
def applyUpdate (hk : String) (ui : UIState) : UIUpdate → UIState
  | .status st msg => updateStatusUi hk ui st msg
  | .transcription t => updateTranscriptionUi ui t

/-- One drain cycle of `GhostWriterApp.poll_updates` (lines 612-626):
`get_nowait` in a loop until `queue.Empty`, applying each entry.
Returns the final widget state and the list of entries applied, in
application order. -/
def poll_updates (hk : String) (ui : UIState) :
    List UIUpdate → UIState × List UIUpdate
  | [] => (ui, [])
  | u :: rest =>
      let r := poll_updates hk (applyUpdate hk ui u) rest
      (r.1, u :: r.2)

-- ===== Transcription pipeline as an event trace =====

/-- Externally visible effects of one `process_recording` run. -/
inductive Event where
  | statusUpdate (st : Status) (msg : String)
  | transcriptionUpdate (t : String)
  | invokeRecognizer
  | tempFileWrite
  | tempFileDelete
  | clipboardCopy (t : String)
  | pasteKeystroke
deriving DecidableEq, Repr

/-- Behaviour of the external recognizer subprocess for one session:
either `subprocess.run` raises (launch failure), or the process runs
and yields an exit code and captured standard output. -/
inductive RecBeh where
  | launchErr (msg : String)
  | run (returncode : Int) (stdout : String)
deriving DecidableEq, Repr

/-- The environment of one `process_recording` run: whether
`wav.write` raises, what the recognizer does, and whether the
clipboard copy inside `type_text` raises. -/
structure ExtWorld where
  wavWriteErr : Option String
  recognizer : RecBeh
  clipboardErr : Option String
deriving DecidableEq, Repr

/-- Python `str.isspace()`: non-empty and all whitespace. -/
def pyIsSpace (s : String) : Bool :=
  s ≠ "" && s.toList.all Char.isWhitespace

/-- Python `str.strip()`: remove leading and trailing whitespace. -/
def pyStrip (s : String) : String :=
  ⟨((s.toList.dropWhile Char.isWhitespace).reverse.dropWhile
      Char.isWhitespace).reverse⟩

/-- `GhostWriterApp.transcribe` (lines 868-894): run the recognizer,
return `None` on a launch exception or a non-zero exit code, else the
stripped standard output. The returned event list records that the
subprocess invocation was reached. -/
def transcribe : RecBeh → Option String × List Event
  | .launchErr _ => (none, [.invokeRecognizer])
  | .run rc out =>
      if rc ≠ 0 then (none, [.invokeRecognizer])
      else (some (pyStrip out), [.invokeRecognizer])

/-- `GhostWriterApp.type_text` (lines 896-916): refuse empty or
whitespace-only text; otherwise copy the stripped text to the
clipboard, sleep `paste_delay`, and send Ctrl+V. A clipboard failure
(`clipboardErr`) propagates as an exception after no events. -/
def type_text (text : String) (clipboardErr : Option String) :
    List Event × Option String :=
  if text = "" || pyIsSpace text then ([], none)
  else
    match clipboardErr with
    | some e => ([], some e)
    | none => ([.clipboardCopy (pyStrip text), .pasteKeystroke], none)

/-- Result of one `process_recording` run: the event trace, whether the
temporary wave file was created, and whether it still exists after the
function returns. -/
structure ProcResult where
  events : List Event
  tempCreated : Bool
  tempExistsAfter : Bool
deriving DecidableEq, Repr

/-- `SAMPLE_RATE` (line 110). -/
def SAMPLE_RATE : ℚ := 16000

/-- `duration = len(recording) / SAMPLE_RATE` where `recording` is the
concatenation of the buffered chunks. -/
def recordingDuration (chunks : List (List Int)) : ℚ :=
  ((chunks.map List.length).sum : ℚ) / SAMPLE_RATE

/-- `GhostWriterApp.process_recording` (lines 821-866), parameterised by
the recorded chunks (`self.audio_data`) and the external world.
`duration = len(recording) / SAMPLE_RATE` is computed over ℚ; both the
length and the quotient are exact in the source's double-precision
arithmetic. The `try/except/finally` of the source is unfolded into the
explicit branches: the `finally` deletion runs on the success path, on
the skip-empty-text path, and on the exception path. -/
def process_recording (chunks : List (List Int)) (w : ExtWorld) : ProcResult :=
  if chunks.length = 0 then
    { events := [.statusUpdate .ready ""],
      tempCreated := false, tempExistsAfter := false }
  else
    if recordingDuration chunks < 0.5 then
      { events := [.statusUpdate .ready ""],
        tempCreated := false, tempExistsAfter := false }
    else
      let evs0 : List Event := [.statusUpdate .transcribing ""]
      match w.wavWriteErr with
      | some e =>
          -- wav.write raised: caught by `except`, error status, `finally`
          -- finds no file to delete.
          { events := evs0 ++ [.statusUpdate .error e],
            tempCreated := false, tempExistsAfter := false }
      | none =>
          let evs1 := evs0 ++ [Event.tempFileWrite]
          let tr := transcribe w.recognizer
          let evs2 := evs1 ++ tr.2
          match tr.1 with
          | some t =>
              if t ≠ "" then
                let evs3 := evs2 ++ [Event.transcriptionUpdate t]
                let tt := type_text t w.clipboardErr
                let evs4 := evs3 ++ tt.1
                match tt.2 with
                | some e =>
                    { events := evs4 ++ [.statusUpdate .error e,
                                         .tempFileDelete],
                      tempCreated := true, tempExistsAfter := false }
                | none =>
                    { events := evs4 ++ [.tempFileDelete,
                                         .statusUpdate .ready ""],
                      tempCreated := true, tempExistsAfter := false }
              else
                { events := evs2 ++ [.tempFileDelete,
                                     .statusUpdate .ready ""],
                  tempCreated := true, tempExistsAfter := false }
          | none =>
              { events := evs2 ++ [.tempFileDelete,
                                   .statusUpdate .ready ""],
                tempCreated := true, tempExistsAfter := false }

/-- The status carried by a status-update event. -/
def statusOfEvent : Event → Option Status
  | .statusUpdate st _ => some st
  | _ => none

/-- The last status enqueued during a run: the value of
`current_status` once the run's updates are drained. -/
def lastStatus (evs : List Event) : Option Status :=
  (evs.filterMap statusOfEvent).getLast?

/-- Whether an event is a clipboard copy or a paste keystroke. -/
def isInjectionEvent : Event → Bool
  | .clipboardCopy _ => true
  | .pasteKeystroke => true
  | _ => false

/-- Whether an event is an error status update. -/
def isErrorStatus : Event → Bool
  | .statusUpdate .error _ => true
  | _ => false

-- ===== Hotkey predicate =====

/-- The keyboard events seen by the pynput listener: the function keys
`Key.f1` … `Key.f20`, the tracked modifier keys, and character keys
(`KeyCode` with a `char` attribute). -/
inductive PKey where
  | f (n : ℕ)
  | ctrl_l
  | ctrl_r
  | shift_l
  | shift_r
  | shift
  | alt_l
  | alt_r
  | alt_gr
  | char (c : Char)
deriving DecidableEq, Repr

/-- `hasattr(key, 'char')` and `key.char`: only character keys carry one. -/
def keyChar : PKey → Option Char
  | .char c => some c
  | _ => none

/-- The value of a decimal digit character. -/
def digitVal (c : Char) : ℕ := c.toNat - 48

/-- The number denoted by a string of decimal digit characters. -/
def digitsToNat (cs : List Char) : ℕ :=
  cs.foldl (fun acc c => 10 * acc + digitVal c) 0

/-- `getattr(Key, hotkey.lower(), Key.f8)` in the function-key branch:
there `hotkey` is `"F"` followed by digits, so the lowered attribute
name is `"f"` followed by the same digits. The pynput `Key` class has
attributes `f1` … `f20`; a name with a leading zero or an out-of-range
number is not an attribute, so the `getattr` default `Key.f8` is
returned for it. -/
def fKeyOf (digits : List Char) : PKey :=
  let n := digitsToNat digits
  if digits.head? ≠ some '0' ∧ 1 ≤ n ∧ n ≤ 20 then .f n else .f 8

/-- `self.settings.get("hotkey", "F8")`. The stored hotkey is always a
string; a non-string value would crash the string methods in the
source, so it is folded into the default here. -/
def hotkeySetting (s : SettingsMap) : String :=
  match lookupKey s "hotkey" with
  | some (.str h) => h
  | _ => "F8"

/-- `GhostWriterApp.is_hotkey_pressed` (lines 938-955): a function-key
hotkey matches by key identity; a combo hotkey matches on the tracked
modifier flags plus the main character. -/
def is_hotkey_pressed (settings : SettingsMap) (ctrl shiftDown alt : Bool)
    (key : PKey) : Bool :=
  let hotkey := hotkeySetting settings
  -- `hotkey.startswith("F") and hotkey[1:].isdigit()`, over the
  -- character list (isdigit: non-empty and all digits)
  if hotkey.toList.head? = some 'F' ∧ hotkey.toList.drop 1 ≠ [] ∧
      (hotkey.toList.drop 1).all Char.isDigit then
    key == fKeyOf (hotkey.toList.drop 1)
  else if hotkey = "Ctrl+Shift+R" then
    ctrl && shiftDown && keyChar key == some 'r'
  else if hotkey = "Ctrl+Shift+D" then
    ctrl && shiftDown && keyChar key == some 'd'
  else if hotkey = "Ctrl+Alt+V" then
    ctrl && alt && keyChar key == some 'v'
  else false

-- ===== Hotkey/recording state machine =====

/-- The mutable per-app state touched by the recording triggers. The
worker thread spawned by `stop_recording` is recorded as a flag. -/
structure AppState where
  files_ok : Bool
  is_recording : Bool
  audio_data : List (List Int)
  settings : SettingsMap
  update_queue : List UIUpdate
  current_status : Status
  ctrl_pressed : Bool
  shift_pressed : Bool
  alt_pressed : Bool
  worker_spawned : Bool
deriving DecidableEq, Repr

/-- `GhostWriterApp.update_status` (lines 630-633): set
`current_status` and enqueue a status entry. -/
def update_status (st : AppState) (state : Status) (msg : String) : AppState :=
  { st with current_status := state,
            update_queue := putUpdate st.update_queue (.status state msg) }

/-- `GhostWriterApp.start_recording` (lines 790-805): refuse when the
startup file check failed; otherwise arm recording, clear the buffer
and enqueue the recording status. (The indicator and the beep are
external cosmetic effects on this path and are not part of the state.) -/
def start_recording (st : AppState) : AppState :=
  if !st.files_ok then st
  else update_status { st with is_recording := true, audio_data := [] }
         .recording ""

/-- `GhostWriterApp.stop_recording` (lines 807-819): disarm and spawn
the `process_recording` worker thread. -/
def stop_recording (st : AppState) : AppState :=
  if !st.is_recording then st
  else { st with is_recording := false, worker_spawned := true }

/-- `GhostWriterApp.toggle_recording` (lines 776-781), the tray-menu
trigger. -/
def toggle_recording (st : AppState) : AppState :=
  if st.is_recording then stop_recording st else start_recording st

/-- The modifier-tracking block at the top of `on_key_press`. -/
def trackModifiers (st : AppState) (key : PKey) : AppState :=
  match key with
  | .ctrl_l | .ctrl_r => { st with ctrl_pressed := true }
  | .shift_l | .shift_r | .shift => { st with shift_pressed := true }
  | .alt_l | .alt_r | .alt_gr => { st with alt_pressed := true }
  | _ => st

/-- `GhostWriterApp.on_key_press` (lines 957-972), the keyboard-listener
trigger. -/
def on_key_press (st : AppState) (key : PKey) : AppState :=
  let st1 := trackModifiers st key
  if is_hotkey_pressed st1.settings st1.ctrl_pressed st1.shift_pressed
       st1.alt_pressed key then
    if !st1.is_recording then start_recording st1 else stop_recording st1
  else st1

-- ===== Settings mutation events =====

/-- `PASTE_DELAY_OPTIONS` (lines 126-132). -/
def PASTE_DELAY_OPTIONS : List (String × ℚ) :=
  [("Fast (0.05s)", 5/100),
   ("Normal (0.10s)", 10/100),
   ("Default (0.15s)", 15/100),
   ("Slow (0.25s)", 25/100),
   ("Very Slow (0.50s)", 50/100)]

/-- Everything that ever writes `self.settings`: the one `load_settings`
call in `__init__` and the five settings-UI handlers
(`on_hotkey_changed`, `on_sound_changed`, `on_delay_changed`,
`on_minimized_changed`, `on_startup_changed`). -/
inductive SettingsEvent where
  | fileLoaded (f : FileState)
  | hotkeyChanged (choice : String)
  | soundChanged (b : Bool)
  | delayChanged (label : String)
  | minimizedChanged (b : Bool)
  | startupChanged (b : Bool)
deriving DecidableEq, Repr

/-- The settings write performed by each event. `on_delay_changed`
scans `PASTE_DELAY_OPTIONS` for the selected label and writes nothing
when it is absent. -/
def applySettingsEvent (s : SettingsMap) : SettingsEvent → SettingsMap
  | .fileLoaded f => load_settings s f
  | .hotkeyChanged choice => setKey s "hotkey" (.str choice)
  | .soundChanged b => setKey s "sound_enabled" (.bool b)
  | .delayChanged label =>
      match PASTE_DELAY_OPTIONS.find? (fun p => p.1 == label) with
      | some p => setKey s "paste_delay" (.num p.2)
      | none => s
  | .minimizedChanged b => setKey s "start_minimized" (.bool b)
  | .startupChanged b => setKey s "run_on_startup" (.bool b)

/-- The settings map after a lifetime of events, starting from
`DEFAULT_SETTINGS.copy()` in `__init__`. -/
def settingsAfter (evs : List SettingsEvent) : SettingsMap :=
  evs.foldl applySettingsEvent DEFAULT_SETTINGS

-- ===== Concrete inputs used by witnesses and counterexamples =====

/-- A one-second recording: a single chunk of 8000 zero samples
followed by another, totalling 16000 samples at 16 kHz. -/
def oneSecChunks : List (List Int) :=
  [List.replicate 8000 0, List.replicate 8000 0]

/-- A world where the recognizer runs and exits with code 1. -/
def exitOneWorld : ExtWorld :=
  { wavWriteErr := none, recognizer := .run 1 "", clipboardErr := none }

/-- A world where the recognizer succeeds but prints only a newline. -/
def emptyOutWorld : ExtWorld :=
  { wavWriteErr := none, recognizer := .run 0 "\n", clipboardErr := none }

/-- An app state in which the startup file check failed. -/
def missingFilesState : AppState :=
  { files_ok := false, is_recording := false, audio_data := [],
    settings := DEFAULT_SETTINGS, update_queue := [],
    current_status := .error, ctrl_pressed := false,
    shift_pressed := false, alt_pressed := false,
    worker_spawned := false }

-- ===== Basic lemmas about the map operations =====

theorem lookupKey_setKey_same (s : SettingsMap) (k : String) (v : JVal) :
    lookupKey (setKey s k v) k = some v := by
  induction s with
  | nil => simp [setKey, lookupKey]
  | cons p rest ih =>
      obtain ⟨k', v'⟩ := p
      by_cases h : k' = k
      · simp [setKey, h, lookupKey]
      · simp [setKey, h, lookupKey, ih]

theorem lookupKey_setKey_other (s : SettingsMap) (k k' : String) (v : JVal)
    (h : k ≠ k') : lookupKey (setKey s k v) k' = lookupKey s k' := by
  induction s with
  | nil => simp [setKey, lookupKey, h]
  | cons p rest ih =>
      obtain ⟨k₀, v₀⟩ := p
      by_cases h₀ : k₀ = k
      · subst h₀
        simp [setKey, lookupKey, h]
      · simp [setKey, h₀, lookupKey, ih]

theorem keysOf_setKey_mem (s : SettingsMap) (k : String) (v : JVal)
    (h : k ∈ keysOf s) : keysOf (setKey s k v) = keysOf s := by
  induction s with
  | nil => simp [keysOf] at h
  | cons p rest ih =>
      obtain ⟨k₀, v₀⟩ := p
      by_cases h₀ : k₀ = k
      · subst h₀
        simp [setKey, keysOf]
      · have hk : k ∈ keysOf rest := by
          simp only [keysOf, List.map_cons, List.mem_cons] at h
          rcases h with h1 | h1
          · exact absurd h1.symm h₀
          · exact h1
        simp only [setKey, if_neg h₀, keysOf, List.map_cons]
        exact congrArg ((k₀, v₀).1 :: ·) (ih hk)

/-- What `mergeKeys` produces at each key: the file's value for a
recognized key present in the file, and the prior value otherwise. -/
theorem lookupKey_mergeKeys (ks : List String) (s f : SettingsMap) (k : String) :
    lookupKey (mergeKeys ks s f) k =
      if k ∈ ks ∧ (lookupKey f k).isSome then lookupKey f k else lookupKey s k := by
  induction ks generalizing s with
  | nil => simp [mergeKeys]
  | cons k₀ ks ih =>
      simp only [mergeKeys]
      rw [ih]
      by_cases hcond : k ∈ k₀ :: ks ∧ (lookupKey f k).isSome
      · rw [if_pos hcond]
        by_cases hmem : k ∈ ks ∧ (lookupKey f k).isSome
        · rw [if_pos hmem]
        · rw [if_neg hmem]
          have hk : k = k₀ := by
            rcases List.mem_cons.mp hcond.1 with h1 | h1
            · exact h1
            · exact absurd ⟨h1, hcond.2⟩ hmem
          cases hf : lookupKey f k₀ with
          | none =>
              have h2 := hcond.2
              rw [hk, hf] at h2
              simp at h2
          | some v =>
              simp only [hf]
              rw [hk, lookupKey_setKey_same, hf]
      · rw [if_neg hcond]
        have hmem : ¬(k ∈ ks ∧ (lookupKey f k).isSome) := fun h =>
          hcond ⟨List.mem_cons_of_mem _ h.1, h.2⟩
        rw [if_neg hmem]
        cases hf : lookupKey f k₀ with
        | none => simp only [hf]
        | some v =>
            simp only [hf]
            have hne : k₀ ≠ k := by
              intro h
              subst h
              exact hcond ⟨List.mem_cons_self _ _, by simp [hf]⟩
            exact lookupKey_setKey_other _ _ _ _ hne

theorem keysOf_mergeKeys (ks : List String) (s f : SettingsMap)
    (h : ∀ k ∈ ks, k ∈ keysOf s) : keysOf (mergeKeys ks s f) = keysOf s := by
  induction ks generalizing s with
  | nil => simp [mergeKeys]
  | cons k₀ ks ih =>
      simp only [mergeKeys]
      cases hf : lookupKey f k₀ with
      | none =>
          exact ih s fun k hk => h k (List.mem_cons_of_mem _ hk)
      | some v =>
          have hk₀ : k₀ ∈ keysOf s := h k₀ (List.mem_cons_self _ _)
          have hkeys := keysOf_setKey_mem s k₀ v hk₀
          rw [ih (setKey s k₀ v) fun k hk => by
            rw [hkeys]; exact h k (List.mem_cons_of_mem _ hk)]
          exact hkeys

/-- `mergeKeys` only reads the file at the keys it iterates over. -/
theorem mergeKeys_congr_file (ks : List String) (s f f' : SettingsMap)
    (h : ∀ k ∈ ks, lookupKey f k = lookupKey f' k) :
    mergeKeys ks s f = mergeKeys ks s f' := by
  induction ks generalizing s with
  | nil => simp [mergeKeys]
  | cons k₀ ks ih =>
      simp only [mergeKeys]
      rw [h k₀ (List.mem_cons_self _ _)]
      cases lookupKey f' k₀ with
      | none => exact ih s fun k hk => h k (List.mem_cons_of_mem _ hk)
      | some v => exact ih _ fun k hk => h k (List.mem_cons_of_mem _ hk)

/-- Filtering a file down to recognized keys does not change any
recognized-key lookup. -/
theorem lookupKey_filter_recognized (f : SettingsMap) (names : List String)
    (k : String) (hk : k ∈ names) :
    lookupKey (f.filter fun p => decide (p.1 ∈ names)) k = lookupKey f k := by
  induction f with
  | nil => rfl
  | cons p rest ih =>
      obtain ⟨k₀, v₀⟩ := p
      by_cases hmem₀ : k₀ ∈ names
      · by_cases h₀ : k₀ = k
        · subst h₀
          simp [List.filter_cons, hmem₀, lookupKey]
        · simp [List.filter_cons, hmem₀, lookupKey, h₀, ih]
      · have h₀ : k₀ ≠ k := fun h => hmem₀ (h ▸ hk)
        simp [List.filter_cons, hmem₀, lookupKey, h₀, ih]


-- ===== Queue lemmas =====

theorem foldl_putUpdate (updates q : List UIUpdate) :
    updates.foldl putUpdate q = q ++ updates := by
  induction updates generalizing q with
  | nil => simp
  | cons u us ih => simp [putUpdate, ih]

theorem poll_updates_spec (hk : String) (ui : UIState) (q : List UIUpdate) :
    poll_updates hk ui q = (q.foldl (applyUpdate hk) ui, q) := by
  induction q generalizing ui with
  | nil => rfl
  | cons u us ih => simp [poll_updates, ih]

-- ===== Claim theorems =====

/-- C3: every sequence of updates enqueued on the update queue is
applied by a single `poll_updates` drain cycle completely and in
exactly the enqueue order — the applied trace equals the enqueued
sequence, and the resulting widget state is the in-order fold of the
updates. -/
theorem poll_updates_fifo (hk : String) (ui : UIState)
    (updates : List UIUpdate) :
    (poll_updates hk ui (updates.foldl putUpdate [])).2 = updates ∧
    (poll_updates hk ui (updates.foldl putUpdate [])).1 =
      updates.foldl (applyUpdate hk) ui := by
  rw [foldl_putUpdate, List.nil_append, poll_updates_spec]
  exact ⟨rfl, rfl⟩

/-- C2: a recording with zero chunks, or one whose total duration is
shorter than 0.5 seconds, triggers no recognizer invocation; the only
effect of `process_recording` is the status update back to ready. -/
theorem short_recording_skips_invocation (chunks : List (List Int))
    (w : ExtWorld)
    (h : chunks.length = 0 ∨ recordingDuration chunks < 0.5) :
    (process_recording chunks w).events = [.statusUpdate .ready ""] ∧
    Event.invokeRecognizer ∉ (process_recording chunks w).events := by
  have he : (process_recording chunks w).events = [.statusUpdate .ready ""] := by
    rcases h with h | h
    · simp [process_recording, h]
    · by_cases h0 : chunks.length = 0
      · simp [process_recording, h0]
      · simp [process_recording, h0, h]
  exact ⟨he, by simp [he]⟩

/-- C2 witness: the zero-chunk recording. -/
theorem short_recording_skips_invocation_witness :
    (process_recording [] exitOneWorld).events = [.statusUpdate .ready ""] ∧
    Event.invokeRecognizer ∉ (process_recording [] exitOneWorld).events :=
  short_recording_skips_invocation [] exitOneWorld (Or.inl rfl)

/-- C4: loading a JSON-object settings file merges it with the
defaults: each of the five recognized keys takes the file's value when
present and the default otherwise, and dropping every unrecognized key
from the file leaves the loaded settings unchanged. -/
theorem load_settings_merges_defaults (f : SettingsMap) :
    (∀ k, k ∈ defaultKeyNames →
        lookupKey (loadFresh (.object f)) k =
          match lookupKey f k with
          | some v => some v
          | none => lookupKey DEFAULT_SETTINGS k) ∧
    loadFresh (.object (f.filter fun p => decide (p.1 ∈ defaultKeyNames))) =
      loadFresh (.object f) := by
  constructor
  · intro k hk
    show lookupKey (mergeKeys defaultKeyNames DEFAULT_SETTINGS f) k = _
    rw [lookupKey_mergeKeys]
    cases hf : lookupKey f k with
    | none => simp
    | some v => simp [hk]
  · show mergeKeys _ _ _ = mergeKeys _ _ _
    exact mergeKeys_congr_file _ _ _ _ fun k hk =>
      lookupKey_filter_recognized f defaultKeyNames k hk

/-- C4 witness: a file overriding `hotkey` and carrying an unknown key. -/
theorem load_settings_merges_defaults_witness :
    lookupKey (loadFresh (.object [("hotkey", JVal.str "F9"),
        ("mystery", JVal.num 1)])) "hotkey" = some (.str "F9") := by
  have h := (load_settings_merges_defaults
      [("hotkey", JVal.str "F9"), ("mystery", JVal.num 1)]).1 "hotkey" (by decide)
  exact h.trans (by decide)

/-- A save/load round trip is a merge of the saved map over defaults. -/
theorem roundTrip_eq (s : SettingsMap) :
    roundTrip s = mergeKeys defaultKeyNames DEFAULT_SETTINGS s := rfl

/-- C7: for a settings map carrying the five recognized keys (the shape
the app maintains), saving and reloading preserves all five values, and
a second save/load cycle yields the same values as a single one. -/
theorem settings_roundtrip_idempotent (s : SettingsMap)
    (h : ∀ k ∈ defaultKeyNames, (lookupKey s k).isSome) :
    (∀ k ∈ defaultKeyNames, lookupKey (roundTrip s) k = lookupKey s k) ∧
    (∀ k ∈ defaultKeyNames,
        lookupKey (roundTrip (roundTrip s)) k = lookupKey (roundTrip s) k) := by
  have h1 : ∀ k ∈ defaultKeyNames, lookupKey (roundTrip s) k = lookupKey s k := by
    intro k hk
    rw [roundTrip_eq, lookupKey_mergeKeys, if_pos ⟨hk, h k hk⟩]
  refine ⟨h1, fun k hk => ?_⟩
  have h2 : (lookupKey (roundTrip s) k).isSome := by
    rw [h1 k hk]; exact h k hk
  rw [roundTrip_eq (roundTrip s), lookupKey_mergeKeys, if_pos ⟨hk, h2⟩]

/-- C7 witness: the defaults themselves survive a round trip. -/
theorem settings_roundtrip_idempotent_witness :
    lookupKey (roundTrip DEFAULT_SETTINGS) "hotkey" =
      lookupKey DEFAULT_SETTINGS "hotkey" :=
  (settings_roundtrip_idempotent DEFAULT_SETTINGS (by decide)).1
    "hotkey" (by decide)

/-- C8: after the hotkey setting is changed to "F9" and persisted, the
key-match predicate of a freshly loaded app accepts an F9 press and
rejects an F8 press, whatever the modifier state. -/
theorem hotkey_f9_matches (s : SettingsMap) (c sh a : Bool) :
    is_hotkey_pressed (loadFresh (save_settings
        (setKey s "hotkey" (.str "F9")))) c sh a (.f 9) = true ∧
    is_hotkey_pressed (loadFresh (save_settings
        (setKey s "hotkey" (.str "F9")))) c sh a (.f 8) = false := by
  have hl : lookupKey (loadFresh (save_settings
      (setKey s "hotkey" (.str "F9")))) "hotkey" = some (.str "F9") := by
    show lookupKey (mergeKeys defaultKeyNames DEFAULT_SETTINGS
        (setKey s "hotkey" (.str "F9"))) "hotkey" = _
    rw [lookupKey_mergeKeys, lookupKey_setKey_same, if_pos ⟨by decide, rfl⟩]
  have hs : hotkeySetting (loadFresh (save_settings
      (setKey s "hotkey" (.str "F9")))) = "F9" := by
    unfold hotkeySetting
    rw [hl]
  have hcond : "F9".toList.head? = some 'F' ∧ "F9".toList.drop 1 ≠ [] ∧
      ("F9".toList.drop 1).all Char.isDigit := by decide
  constructor
  · simp only [is_hotkey_pressed, hs]
    rw [if_pos hcond]
    decide
  · simp only [is_hotkey_pressed, hs]
    rw [if_pos hcond]
    decide

/-- C10: the settings map carries exactly the five recognized keys, in
the default order, after any lifetime of file loads and settings-change
handler runs — so a `save_settings` snapshot never contains an unknown
key. -/
theorem settings_keys_invariant (evs : List SettingsEvent) :
    keysOf (settingsAfter evs) =
      ["hotkey", "sound_enabled", "paste_delay",
       "start_minimized", "run_on_startup"] := by
  have hstep : ∀ s ev, keysOf s = defaultKeyNames →
      keysOf (applySettingsEvent s ev) = defaultKeyNames := by
    intro s ev hs
    cases ev with
    | fileLoaded f =>
        cases f with
        | absent => exact hs
        | invalid m => exact hs
        | object entries =>
            show keysOf (mergeKeys defaultKeyNames s entries) = _
            rw [keysOf_mergeKeys _ _ _ fun k hk => by rw [hs]; exact hk]
            exact hs
    | hotkeyChanged choice =>
        show keysOf (setKey s "hotkey" _) = _
        rw [keysOf_setKey_mem _ _ _ (by rw [hs]; decide)]
        exact hs
    | soundChanged b =>
        show keysOf (setKey s "sound_enabled" _) = _
        rw [keysOf_setKey_mem _ _ _ (by rw [hs]; decide)]
        exact hs
    | delayChanged label =>
        show keysOf (match PASTE_DELAY_OPTIONS.find? (fun p => p.1 == label) with
          | some p => setKey s "paste_delay" (.num p.2)
          | none => s) = _
        cases hf : PASTE_DELAY_OPTIONS.find? (fun p => p.1 == label) with
        | none => exact hs
        | some p =>
            rw [keysOf_setKey_mem _ _ _ (by rw [hs]; decide)]
            exact hs
    | minimizedChanged b =>
        show keysOf (setKey s "start_minimized" _) = _
        rw [keysOf_setKey_mem _ _ _ (by rw [hs]; decide)]
        exact hs
    | startupChanged b =>
        show keysOf (setKey s "run_on_startup" _) = _
        rw [keysOf_setKey_mem _ _ _ (by rw [hs]; decide)]
        exact hs
  have hfold : ∀ (l : List SettingsEvent) s, keysOf s = defaultKeyNames →
      keysOf (l.foldl applySettingsEvent s) = defaultKeyNames := by
    intro l
    induction l with
    | nil => intro s hs; exact hs
    | cons e es ih => intro s hs; exact ih _ (hstep s e hs)
  show keysOf (evs.foldl applySettingsEvent DEFAULT_SETTINGS) = _
  rw [hfold evs DEFAULT_SETTINGS rfl]
  rfl

/-- C9: when the startup file check failed (`files_ok` false),
`start_recording` leaves the state untouched — recording is never
armed, the buffer is not cleared and nothing is enqueued — and this
holds on every trigger path: the direct call, the tray-menu toggle,
and the hotkey press (whose only possible effect is then the modifier
bookkeeping at the top of `on_key_press`). -/
theorem files_missing_start_noop (st : AppState) (key : PKey)
    (h : st.files_ok = false) :
    start_recording st = st ∧
    (st.is_recording = false →
      toggle_recording st = st ∧
      (on_key_press st key).is_recording = false ∧
      (on_key_press st key).audio_data = st.audio_data ∧
      (on_key_press st key).update_queue = st.update_queue) := by
  have hstart : ∀ s : AppState, s.files_ok = false → start_recording s = s := by
    intro s hs
    simp [start_recording, hs]
  refine ⟨hstart st h, fun hrec => ?_⟩
  have htm : (trackModifiers st key).files_ok = st.files_ok ∧
      (trackModifiers st key).is_recording = st.is_recording ∧
      (trackModifiers st key).audio_data = st.audio_data ∧
      (trackModifiers st key).update_queue = st.update_queue := by
    cases key <;> simp [trackModifiers]
  have hok : on_key_press st key = trackModifiers st key := by
    simp only [on_key_press]
    by_cases hc : is_hotkey_pressed (trackModifiers st key).settings
        (trackModifiers st key).ctrl_pressed (trackModifiers st key).shift_pressed
        (trackModifiers st key).alt_pressed key
    · simp only [hc, if_true]
      rw [htm.2.1, hrec]
      simp only [Bool.not_false, if_true]
      exact hstart _ (htm.1.trans h)
    · simp [hc]
  refine ⟨by simp [toggle_recording, hrec, hstart st h], ?_, ?_, ?_⟩ <;> rw [hok]
  · rw [htm.2.1, hrec]
  · exact htm.2.2.1
  · exact htm.2.2.2

/-- C9 witness: the ready-but-missing-files state is left unchanged. -/
theorem files_missing_start_noop_witness :
    start_recording missingFilesState = missingFilesState :=
  (files_missing_start_noop missingFilesState (.f 8) rfl).1

-- ===== Transcription-run lemmas =====

theorem transcribe_fail (rc : Int) (out : String) (h : rc ≠ 0) :
    transcribe (.run rc out) = (none, [.invokeRecognizer]) := by
  simp [transcribe, h]

theorem transcribe_ok (out : String) :
    transcribe (.run 0 out) = (some (pyStrip out), [.invokeRecognizer]) := by
  simp [transcribe]

/-- C1 (amended): if the external recognizer subprocess exits with a
non-zero code, no clipboard copy or paste keystroke occurs for that
session, and the status is set back to ready — the null transcription
is treated like an empty result; the error status is reserved for
exceptions raised inside `process_recording`. -/
theorem recognizer_failure_silent_ready (chunks : List (List Int))
    (w : ExtWorld) (rc : Int) (out : String)
    (hw : w.wavWriteErr = none) (hr : w.recognizer = .run rc out)
    (hrc : rc ≠ 0) :
    (∀ e ∈ (process_recording chunks w).events, isInjectionEvent e = false) ∧
    lastStatus (process_recording chunks w).events = some .ready := by
  by_cases h0 : chunks.length = 0
  · have he : (process_recording chunks w).events =
        [.statusUpdate .ready ""] := by
      simp [process_recording, h0]
    rw [he]
    exact ⟨by decide, by decide⟩
  · by_cases h1 : recordingDuration chunks < 0.5
    · have he : (process_recording chunks w).events =
          [.statusUpdate .ready ""] := by
        simp [process_recording, h0, h1]
      rw [he]
      exact ⟨by decide, by decide⟩
    · have he : (process_recording chunks w).events =
          [.statusUpdate .transcribing "", .tempFileWrite, .invokeRecognizer,
           .tempFileDelete, .statusUpdate .ready ""] := by
        simp [process_recording, h0, h1, hw, hr, transcribe_fail rc out hrc]
      rw [he]
      exact ⟨by decide, by decide⟩

/-- C1 (amended) witness: a one-second recording with exit code 1. -/
theorem recognizer_failure_silent_ready_witness :
    lastStatus (process_recording oneSecChunks exitOneWorld).events =
      some .ready :=
  (recognizer_failure_silent_ready oneSecChunks exitOneWorld 1 ""
      rfl rfl (by decide)).2

/-- C1 counterexample: with a one-second recording and the recognizer
exiting with code 1, `process_recording` enqueues no error status at
all — the session ends on a ready status, contradicting the claim that
the status is set to error. -/
theorem recognizer_exit_error_status_cex :
    ((process_recording oneSecChunks exitOneWorld).events.any isErrorStatus)
        = false ∧
    lastStatus (process_recording oneSecChunks exitOneWorld).events =
      some .ready := by
  have h0 : ¬(oneSecChunks.length = 0) := by decide
  have h1 : ¬recordingDuration oneSecChunks < 0.5 := by
    norm_num [recordingDuration, oneSecChunks, SAMPLE_RATE]
  have he : (process_recording oneSecChunks exitOneWorld).events =
      [.statusUpdate .transcribing "", .tempFileWrite, .invokeRecognizer,
       .tempFileDelete, .statusUpdate .ready ""] := by
    simp [process_recording, h0, h1, exitOneWorld,
          transcribe_fail 1 "" (by decide)]
  rw [he]
  exact ⟨by decide, by decide⟩

/-- C6: if the recognizer succeeds but its output strips to the empty
string, no clipboard write and no paste keystroke occur, and the status
is set back to ready. -/
theorem empty_transcription_no_paste (chunks : List (List Int))
    (w : ExtWorld) (out : String)
    (hw : w.wavWriteErr = none) (hr : w.recognizer = .run 0 out)
    (ht : pyStrip out = "") :
    (∀ e ∈ (process_recording chunks w).events, isInjectionEvent e = false) ∧
    lastStatus (process_recording chunks w).events = some .ready := by
  by_cases h0 : chunks.length = 0
  · have he : (process_recording chunks w).events =
        [.statusUpdate .ready ""] := by
      simp [process_recording, h0]
    rw [he]
    exact ⟨by decide, by decide⟩
  · by_cases h1 : recordingDuration chunks < 0.5
    · have he : (process_recording chunks w).events =
          [.statusUpdate .ready ""] := by
        simp [process_recording, h0, h1]
      rw [he]
      exact ⟨by decide, by decide⟩
    · have he : (process_recording chunks w).events =
          [.statusUpdate .transcribing "", .tempFileWrite, .invokeRecognizer,
           .tempFileDelete, .statusUpdate .ready ""] := by
        simp [process_recording, h0, h1, hw, hr, transcribe_ok out, ht]
      rw [he]
      exact ⟨by decide, by decide⟩

/-- C6 witness: a one-second recording with a newline-only output. -/
theorem empty_transcription_no_paste_witness :
    lastStatus (process_recording oneSecChunks emptyOutWorld).events =
      some .ready :=
  (empty_transcription_no_paste oneSecChunks emptyOutWorld "\n"
      rfl rfl (by decide)).2

/-- C5: whenever `process_recording` reaches the point of writing the
temporary wave file, the file no longer exists once the function
returns: the `finally` deletion fires on the success path, the
empty-transcription path and the exception path alike. -/
theorem temp_wav_always_deleted (chunks : List (List Int)) (w : ExtWorld)
    (h : (process_recording chunks w).tempCreated = true) :
    (process_recording chunks w).tempExistsAfter = false ∧
    Event.tempFileDelete ∈ (process_recording chunks w).events := by
  by_cases h0 : chunks.length = 0
  · simp [process_recording, h0] at h
  · by_cases h1 : recordingDuration chunks < 0.5
    · simp [process_recording, h0, h1] at h
    · cases hw : w.wavWriteErr with
      | some e => simp [process_recording, h0, h1, hw] at h
      | none =>
          cases htr : (transcribe w.recognizer).1 with
          | none => simp [process_recording, h0, h1, hw, htr]
          | some t =>
              by_cases hte : t = ""
              · simp [process_recording, h0, h1, hw, htr, hte]
              · cases htt : (type_text t w.clipboardErr).2 with
                | some e2 =>
                    simp [process_recording, h0, h1, hw, htr, hte, htt]
                | none =>
                    simp [process_recording, h0, h1, hw, htr, hte, htt]

/-- C5 witness: the failing-recognizer run still deletes the file. -/
theorem temp_wav_always_deleted_witness :
    (process_recording oneSecChunks exitOneWorld).tempExistsAfter = false ∧
    Event.tempFileDelete ∈ (process_recording oneSecChunks exitOneWorld).events :=
  temp_wav_always_deleted oneSecChunks exitOneWorld (by
    have h0 : ¬(oneSecChunks.length = 0) := by decide
    have h1 : ¬recordingDuration oneSecChunks < 0.5 := by
      norm_num [recordingDuration, oneSecChunks, SAMPLE_RATE]
    simp [process_recording, h0, h1, exitOneWorld,
          transcribe_fail 1 "" (by decide)])

end GhostWriter
